import Mathlib

/-!
Shallow embedding of the fastify + zod + prisma CRUD demo.

Sources embedded here:
- the fastify-crud `server.js` transcribed in the repository notes
  (POST /users, GET /users, GET /users/:id, PUT /users/:id,
  DELETE /users/:id, POST /posts and its zod schemas);
- `demo-fastify/schemas/user.js` (the zod `createUserSchema` with
  name min 4, email format, optional address);
- `demo-fastify/app.js` (the live POST /user route, which performs no
  validation and returns fastify's default 200 status);
- `prisma/schema.prisma` (User: id autoincrement, name, email @unique;
  Post with userId foreign key in the extended notes schema).

Conventions: JS `undefined` is `Option.none`; the relational store is a
list of records plus the autoincrement counter; Prisma/PostgreSQL
behaviour (unique index on email, record-not-found on update/delete,
foreign-key check on Post.userId) is modelled as the store operations'
error results; a handler without a try/catch surfaces a store error as
fastify's default 500 reply.  Server-assigned timestamps (`createdAt`)
are omitted: no claim mentions them and the `schema.prisma` User model
under src has no such column.
-/

/-- A stored User row, per `model User` in prisma/schema.prisma:
id (autoincrement Int), name, email (@unique).  There is no address
column. -/
structure UserRecord where
  id : Int
  name : String
  email : String
deriving DecidableEq

/-- A stored Post row, per the extended notes schema: id, title,
content, userId (foreign key to User.id). -/
structure PostRecord where
  id : Int
  title : String
  content : String
  userId : Int
deriving DecidableEq

/-- The users table plus the autoincrement counter. -/
structure UserStore where
  users : List UserRecord
  nextId : Int
deriving DecidableEq

/-- The posts table plus the autoincrement counter. -/
structure PostStore where
  posts : List PostRecord
  nextPostId : Int
deriving DecidableEq

/-- Errors raised by the Prisma client / PostgreSQL:
unique-index violation (P2002), record not found on update/delete
(P2025), foreign-key violation (P2003), and an invalid argument such as
`NaN` passed where an Int is required. -/
inductive StoreError where
  | uniqueViolation
  | recordNotFound
  | foreignKeyViolation
  | invalidValue
deriving DecidableEq

/-- One zod issue: field path and human-readable message. -/
structure FieldIssue where
  path : String
  message : String
deriving DecidableEq

/-- A JSON reply body, covering every shape the embedded handlers send. -/
inductive Body where
  | user (u : UserRecord)
  | userList (l : List UserRecord)
  | post (p : PostRecord)
  | validationIssues (issues : List FieldIssue)
  | storeError (e : StoreError)
  | message (m : String)
  | messageUser (m : String) (u : UserRecord)
  | empty
  | serverError
deriving DecidableEq

/-- An HTTP reply: status code and body. -/
structure Reply where
  status : Nat
  body : Body
deriving DecidableEq

/-! ## JS parseInt (no radix argument), as the handlers call it -/

/-- Numeric value of a hexadecimal digit character (callers guard with
`isHexDigit`). -/
def hexDigitVal (c : Char) : Nat :=
  if c.isDigit then c.toNat - 48
  else if 'a' ≤ c ∧ c ≤ 'f' then c.toNat - 87
  else c.toNat - 55

/-- Hexadecimal digit test. -/
def isHexDigit (c : Char) : Bool :=
  c.isDigit || ('a' ≤ c && c ≤ 'f') || ('A' ≤ c && c ≤ 'F')

/-- Value of a hexadecimal digit run. -/
def hexVal (ds : List Char) : Nat :=
  ds.foldl (fun a c => a * 16 + hexDigitVal c) 0

/-- Value of a decimal digit run. -/
def decVal (ds : List Char) : Nat :=
  ds.foldl (fun a c => a * 10 + (c.toNat - 48)) 0

/-- The ECMA-262 StrWhiteSpaceChar set that `parseInt` skips:
WhiteSpace (TAB, VT, FF, SP, NBSP, ZWNBSP and the Unicode Zs space
separators) together with the LineTerminator characters (LF, CR, LS,
PS). -/
def isJsWhitespace (c : Char) : Bool :=
  c = '\x09' || c = '\x0A' || c = '\x0B' || c = '\x0C' || c = '\x0D' ||
  c = '\x20' || c = '\u00A0' || c = '\u1680' || c = '\u2000' ||
  c = '\u2001' || c = '\u2002' || c = '\u2003' || c = '\u2004' ||
  c = '\u2005' || c = '\u2006' || c = '\u2007' || c = '\u2008' ||
  c = '\u2009' || c = '\u200A' || c = '\u2028' || c = '\u2029' ||
  c = '\u202F' || c = '\u205F' || c = '\u3000' || c = '\uFEFF'

/-- ECMAScript `parseInt(string)` with the radix argument absent, as
called by the `/users/:id` and `/posts/:id` handlers: skip leading
StrWhiteSpaceChar characters, an optional sign, then either a
`0x`/`0X` hexadecimal prefixed digit run or a decimal digit run;
`none` models `NaN`.  One modelling boundary: the digit run's value is
computed here as an exact integer, while `parseInt` returns the IEEE
double nearest to it; the two coincide for values below 2^53, and the
theorems about decimal parsing quantify only over that range. -/
def jsParseInt (s : String) : Option Int :=
  let cs := s.data.dropWhile isJsWhitespace
  let sign : Int := if cs.head? = some '-' then -1 else 1
  let cs1 := if cs.head? = some '-' ∨ cs.head? = some '+' then cs.tail else cs
  if cs1.take 2 = ['0', 'x'] ∨ cs1.take 2 = ['0', 'X'] then
    let ds := (cs1.drop 2).takeWhile isHexDigit
    if ds = [] then none else some (sign * (hexVal ds : Int))
  else
    let ds := cs1.takeWhile Char.isDigit
    if ds = [] then none else some (sign * (decVal ds : Int))

/-- Decimal-prefix parsing as the claim's words describe it (spec-side
definition, to be compared with `jsParseInt`): the value of the maximal
leading run of decimal digits, or nothing when there is none. -/
def decimalDigitRunVal (s : String) : Option Nat :=
  match s.data.takeWhile Char.isDigit with
  | [] => none
  | ds => some (decVal ds)

/-! ## zod schemas -/

/-- A raw JSON body for the user routes: each field is a string or
absent (`undefined`). -/
structure RawUserInput where
  name : Option String
  email : Option String
  address : Option String
deriving DecidableEq

/-- A raw JSON body for POST /posts. -/
structure RawPostInput where
  title : Option String
  content : Option String
  userId : Option Int
deriving DecidableEq

/-- Models the third-party zod `z.string().email(...)` format check:
exactly one `@`, a non-empty local part, and a domain that contains a
dot and neither starts nor ends with one.  Only concrete evaluations of
this predicate are used; no claim depends on its edge cases. -/
def isEmailFormat (s : String) : Bool :=
  let cs := s.data
  let lp := cs.takeWhile (fun c => c ≠ '@')
  let rest := cs.dropWhile (fun c => c ≠ '@')
  match rest with
  | '@' :: dom =>
      lp ≠ [] && dom ≠ [] && dom.all (fun c => c ≠ '@') &&
      dom.any (fun c => c = '.') && dom.head? ≠ some '.' &&
      dom.getLast? ≠ some '.'
  | _ => false

/-- zod issues for a required string field with a minimum length check:
an absent value yields zod's default `Required` issue; a present value
shorter than `minLen` yields the custom message. -/
def checkRequiredString (field : String) (minLen : Nat) (msg : String)
    (v : Option String) : List FieldIssue :=
  match v with
  | none => [⟨field, "Required"⟩]
  | some n => if n.length < minLen then [⟨field, msg⟩] else []

/-- zod issues for `z.string().email(msg)`. -/
def checkEmail (msg : String) (v : Option String) : List FieldIssue :=
  match v with
  | none => [⟨"email", "Required"⟩]
  | some e => if isEmailFormat e then [] else [⟨"email", msg⟩]

/-- The parse result of `createUserSchema` in demo-fastify/schemas/user.js:
name, email, optional address. -/
structure ParsedUserDemo where
  name : String
  email : String
  address : Option String
deriving DecidableEq

/-- `createUserSchema` of demo-fastify/schemas/user.js:
name `z.string().min(4, "Name must be at least 4 characters")`,
email `z.string().email("Invalid email format")`,
address `z.string().optional()`.  Issues across fields are accumulated
in one pass, as `z.object(...).parse` does. -/
def createUserSchemaDemo (input : RawUserInput) :
    Except (List FieldIssue) ParsedUserDemo :=
  match checkRequiredString "name" 4 "Name must be at least 4 characters" input.name ++
        checkEmail "Invalid email format" input.email with
  | [] => .ok ⟨input.name.getD "", input.email.getD "", input.address⟩
  | issues => .error issues

/-- The parse result of the fastify-crud `createUserSchema`: name and
email only (zod strips keys not in the schema, so any address in the
input is dropped). -/
structure ParsedUserCrud where
  name : String
  email : String
deriving DecidableEq

/-- `createUserSchema` of the fastify-crud server.js:
name `z.string().min(3, 'Name must be at least 3 characters long')`,
email `z.string().email('Invalid email address')`. -/
def createUserSchemaCrud (input : RawUserInput) :
    Except (List FieldIssue) ParsedUserCrud :=
  match checkRequiredString "name" 3 "Name must be at least 3 characters long" input.name ++
        checkEmail "Invalid email address" input.email with
  | [] => .ok ⟨input.name.getD "", input.email.getD ""⟩
  | issues => .error issues

/-- The parse result of `createPostSchema`. -/
structure ParsedPost where
  title : String
  content : String
  userId : Int
deriving DecidableEq

/-- zod issues for `z.number().int(...).positive()` restricted to
integer-or-absent inputs: absent is `Required`, a non-positive integer
fails the positive check with zod's default message. -/
def checkUserIdField (v : Option Int) : List FieldIssue :=
  match v with
  | none => [⟨"userId", "Required"⟩]
  | some i => if i ≤ 0 then [⟨"userId", "Number must be greater than 0"⟩] else []

/-- `createPostSchema` of the fastify-crud server.js:
title `z.string().min(3, ...)`, content `z.string().min(10, ...)`,
userId `z.number().int(...).positive()`. -/
def createPostSchema (input : RawPostInput) :
    Except (List FieldIssue) ParsedPost :=
  match checkRequiredString "title" 3 "Title must be at least 3 characters long" input.title ++
        checkRequiredString "content" 10 "Content must be at least 10 characters long" input.content ++
        checkUserIdField input.userId with
  | [] => .ok ⟨input.title.getD "", input.content.getD "", input.userId.getD 0⟩
  | issues => .error issues

/-! ## Prisma client operations over the relational store -/

/-- `prisma.user.create({data:{name, email}})`: inserts a row with the
next autoincrement id; the unique index on email rejects a duplicate
(P2002). -/
def prismaUserCreate (st : UserStore) (name email : String) :
    Except StoreError (UserRecord × UserStore) :=
  if st.users.any (fun u => u.email = email) then .error .uniqueViolation
  else
    let u : UserRecord := ⟨st.nextId, name, email⟩
    .ok (u, ⟨st.users ++ [u], st.nextId + 1⟩)

/-- `prisma.user.findMany()`. -/
def prismaUserFindMany (st : UserStore) : List UserRecord :=
  st.users

/-- `prisma.user.findUnique({where:{id}})`: `NaN` is rejected as an
invalid argument; otherwise the row with that id, if any. -/
def prismaUserFindUnique (st : UserStore) (id : Option Int) :
    Except StoreError (Option UserRecord) :=
  match id with
  | none => .error .invalidValue
  | some i => .ok (st.users.find? (fun u => u.id = i))

/-- `prisma.user.update({where:{id}, data:{name, email}})`: an
`undefined` field is left untouched; a missing row raises P2025; the
unique index on email also applies to updates. -/
def prismaUserUpdate (st : UserStore) (id : Option Int)
    (name email : Option String) :
    Except StoreError (UserRecord × UserStore) :=
  match id with
  | none => .error .invalidValue
  | some i =>
    match st.users.find? (fun u => u.id = i) with
    | none => .error .recordNotFound
    | some u =>
      let u2 : UserRecord := ⟨u.id, name.getD u.name, email.getD u.email⟩
      if st.users.any (fun v => v.id ≠ i ∧ v.email = u2.email) then
        .error .uniqueViolation
      else
        .ok (u2, ⟨st.users.map (fun v => if v.id = i then u2 else v), st.nextId⟩)

/-- `prisma.user.delete({where:{id}})`: a missing row raises P2025. -/
def prismaUserDelete (st : UserStore) (id : Option Int) :
    Except StoreError UserStore :=
  match id with
  | none => .error .invalidValue
  | some i =>
    match st.users.find? (fun u => u.id = i) with
    | none => .error .recordNotFound
    | some _ => .ok ⟨st.users.filter (fun u => u.id ≠ i), st.nextId⟩

/-- `prisma.post.create({data:{title, content, userId}})`: the foreign
key on userId requires an existing User row (P2003 otherwise). -/
def prismaPostCreate (ust : UserStore) (pst : PostStore)
    (title content : String) (userId : Int) :
    Except StoreError (PostRecord × PostStore) :=
  if ust.users.any (fun u => u.id = userId) then
    let p : PostRecord := ⟨pst.nextPostId, title, content, userId⟩
    .ok (p, ⟨pst.posts ++ [p], pst.nextPostId + 1⟩)
  else .error .foreignKeyViolation

/-! ## fastify route handlers (fastify-crud server.js) -/

/-- POST /users: `createUserSchema.parse(request.body)`, then
`prisma.user.create`, replying 201 with the stored row; the catch block
replies 400 with `error.errors || error`, i.e. the zod issue list for a
validation failure and the raw store error otherwise. -/
def postUsers (st : UserStore) (body : RawUserInput) : Reply × UserStore :=
  match createUserSchemaCrud body with
  | .error issues => (⟨400, .validationIssues issues⟩, st)
  | .ok p =>
    match prismaUserCreate st p.name p.email with
    | .ok (u, st2) => (⟨201, .user u⟩, st2)
    | .error e => (⟨400, .storeError e⟩, st)

/-- GET /users: `prisma.user.findMany()`, replied with the default 200. -/
def getUsers (st : UserStore) : Reply :=
  ⟨200, .userList (prismaUserFindMany st)⟩

/-- The GET /users/:id handler after `parseInt` has run: 200 with the
row when found, 404 `User not found` otherwise; an uncaught store error
becomes fastify's default 500. -/
def getUserByParsedId (st : UserStore) (pid : Option Int) : Reply :=
  match prismaUserFindUnique st pid with
  | .error _ => ⟨500, .serverError⟩
  | .ok (some u) => ⟨200, .user u⟩
  | .ok none => ⟨404, .message "User not found"⟩

/-- GET /users/:id: `parseInt(id)` then `findUnique`. -/
def getUserById (st : UserStore) (idParam : String) : Reply :=
  getUserByParsedId st (jsParseInt idParam)

/-- The PUT /users/:id body: `const { name, email } = request.body`. -/
structure UpdateBody where
  name : Option String
  email : Option String
deriving DecidableEq

/-- The PUT /users/:id handler after `parseInt` has run: the handler
has no try/catch, so any store error (including record-not-found) is
surfaced as fastify's default 500 reply. -/
def putUserByParsedId (st : UserStore) (pid : Option Int)
    (body : UpdateBody) : Reply × UserStore :=
  match prismaUserUpdate st pid body.name body.email with
  | .ok (u, st2) => (⟨200, .user u⟩, st2)
  | .error _ => (⟨500, .serverError⟩, st)

/-- PUT /users/:id: `parseInt(id)` then `prisma.user.update`. -/
def putUserById (st : UserStore) (idParam : String)
    (body : UpdateBody) : Reply × UserStore :=
  putUserByParsedId st (jsParseInt idParam) body

/-- The DELETE /users/:id handler after `parseInt` has run: 204 on
success; no try/catch, so a store error becomes fastify's default 500. -/
def deleteUserByParsedId (st : UserStore) (pid : Option Int) :
    Reply × UserStore :=
  match prismaUserDelete st pid with
  | .ok st2 => (⟨204, .empty⟩, st2)
  | .error _ => (⟨500, .serverError⟩, st)

/-- DELETE /users/:id: `parseInt(id)` then `prisma.user.delete`. -/
def deleteUserById (st : UserStore) (idParam : String) :
    Reply × UserStore :=
  deleteUserByParsedId st (jsParseInt idParam)

/-- POST /posts: `createPostSchema.parse`, then `prisma.post.create`;
the catch block replies 400 with `error.errors || error`, so a
foreign-key violation from the store is passed through as the 400 body
rather than being converted to a validation failure. -/
def postPosts (ust : UserStore) (pst : PostStore) (body : RawPostInput) :
    Reply × PostStore :=
  match createPostSchema body with
  | .error issues => (⟨400, .validationIssues issues⟩, pst)
  | .ok p =>
    match prismaPostCreate ust pst p.title p.content p.userId with
    | .ok (pr, pst2) => (⟨201, .post pr⟩, pst2)
    | .error e => (⟨400, .storeError e⟩, pst)

/-- POST /user of demo-fastify/app.js: no validation is performed; the
handler destructures name and email and calls `prisma.user.create`,
then returns `{ message, user }` with fastify's default 200 status.  A
missing name or email, or any store error, is an uncaught throw and so
becomes fastify's default 500 reply. -/
def demoPostUser (st : UserStore) (body : RawUserInput) :
    Reply × UserStore :=
  match body.name, body.email with
  | some n, some e =>
    match prismaUserCreate st n e with
    | .ok (u, st2) => (⟨200, .messageUser "User created successfully" u⟩, st2)
    | .error _ => (⟨500, .serverError⟩, st)
  | _, _ => (⟨500, .serverError⟩, st)

/-! ## Store invariants -/

/-- Well-formedness of a users table as produced by the autoincrement
store: every id is below the counter, ids are pairwise distinct, and
emails are pairwise distinct (the `@unique` index). -/
def StoreInv (st : UserStore) : Prop :=
  (∀ u ∈ st.users, u.id < st.nextId) ∧
  (st.users.map (fun u => u.id)).Nodup ∧
  (st.users.map (fun u => u.email)).Nodup

instance (st : UserStore) : Decidable (StoreInv st) := by
  unfold StoreInv; infer_instance

/-- No two distinct stored users share an email. -/
def EmailsUnique (st : UserStore) : Prop :=
  ∀ u ∈ st.users, ∀ v ∈ st.users, u ≠ v → u.email ≠ v.email

/-! ## Helper lemmas -/

instance {ε α : Type} [DecidableEq ε] [DecidableEq α] :
    DecidableEq (Except ε α) := fun a b =>
  match a, b with
  | .ok x, .ok y =>
      if h : x = y then .isTrue (by rw [h]) else
        .isFalse (fun hc => h (by injection hc))
  | .error x, .error y =>
      if h : x = y then .isTrue (by rw [h]) else
        .isFalse (fun hc => h (by injection hc))
  | .ok _, .error _ => .isFalse (fun hc => Except.noConfusion hc)
  | .error _, .ok _ => .isFalse (fun hc => Except.noConfusion hc)

theorem checkRequiredString_nil_inv {field msg : String} {minLen : Nat}
    {v : Option String} (h : checkRequiredString field minLen msg v = []) :
    v = some (v.getD "") ∧ minLen ≤ (v.getD "").length := by
  cases v with
  | none => simp [checkRequiredString] at h
  | some n =>
    refine ⟨rfl, ?_⟩
    by_contra hlt
    simp [checkRequiredString, Nat.lt_of_not_le hlt] at h
    exact hlt h

theorem checkEmail_nil_inv {msg : String} {v : Option String}
    (h : checkEmail msg v = []) :
    v = some (v.getD "") ∧ isEmailFormat (v.getD "") = true := by
  cases v with
  | none => simp [checkEmail] at h
  | some e =>
    refine ⟨rfl, ?_⟩
    by_contra hfe
    simp [checkEmail, hfe] at h
    exact hfe h

theorem createUserSchemaDemo_ok_inv {input : RawUserInput} {pu : ParsedUserDemo}
    (h : createUserSchemaDemo input = .ok pu) :
    input.name = some pu.name ∧ 4 ≤ pu.name.length ∧
    input.email = some pu.email ∧ isEmailFormat pu.email = true ∧
    input.address = pu.address := by
  unfold createUserSchemaDemo at h
  split at h
  case _ heq =>
    injection h with h
    subst h
    obtain ⟨h1, h2⟩ := List.append_eq_nil.mp heq
    obtain ⟨hn, hln⟩ := checkRequiredString_nil_inv h1
    obtain ⟨he, hfe⟩ := checkEmail_nil_inv h2
    exact ⟨hn, hln, he, hfe, rfl⟩
  case _ heq => exact Except.noConfusion h

theorem createUserSchemaCrud_ok_of {input : RawUserInput} {n e : String}
    (hn : input.name = some n) (hln : 3 ≤ n.length)
    (he : input.email = some e) (hfe : isEmailFormat e = true) :
    createUserSchemaCrud input = .ok ⟨n, e⟩ := by
  unfold createUserSchemaCrud
  rw [hn, he]
  simp [checkRequiredString, checkEmail, hfe, Nat.not_lt.mpr hln]

/-! ## Claim theorems -/

/-- C2, counterexample: `create({name:"Jo"})` on the validated create
(POST /users) replies 400 with both violations in one pass, but the
name message is the code's `Name must be at least 3 characters long`,
not the claimed `at least 4 characters`; the demo app's POST /user does
no validation at all and replies 500 there; the min-4 wording comes
from `demo-fastify/schemas/user.js`, whose direct parse yields it but
which is not wired to any live create route. -/
theorem c2_counterexample :
    (postUsers ⟨[], 1⟩ ⟨some "Jo", none, none⟩).1 =
      ⟨400, .validationIssues
        [⟨"name", "Name must be at least 3 characters long"⟩,
         ⟨"email", "Required"⟩]⟩ ∧
    demoPostUser ⟨[], 1⟩ ⟨some "Jo", none, none⟩ =
      (⟨500, .serverError⟩, ⟨[], 1⟩) ∧
    createUserSchemaDemo ⟨some "Jo", none, none⟩ =
      .error [⟨"name", "Name must be at least 4 characters"⟩,
              ⟨"email", "Required"⟩] := by decide

/-- C2, amended: on the validated create, `{name:"Jo"}` replies 400
accumulating both field violations in one pass (name at least 3
characters, email required), `{name:"John Doe", email:"john@example.com"}`
replies 201; the demo schema's direct parse of `{name:"Jo"}` is what
yields the min-4 message the spec quotes. -/
theorem c2_amended :
    postUsers ⟨[], 1⟩ ⟨some "Jo", none, none⟩ =
      (⟨400, .validationIssues
        [⟨"name", "Name must be at least 3 characters long"⟩,
         ⟨"email", "Required"⟩]⟩, ⟨[], 1⟩) ∧
    (postUsers ⟨[], 1⟩
      ⟨some "John Doe", some "john@example.com", none⟩).1.status = 201 ∧
    createUserSchemaDemo ⟨some "Jo", none, none⟩ =
      .error [⟨"name", "Name must be at least 4 characters"⟩,
              ⟨"email", "Required"⟩] := by decide

/-- C3, counterexample: the demo app's POST /user (cited by the claim)
performs no validation; with the email missing it surfaces an uncaught
store error as a 500 reply, not a ValidationError naming the field (no
record is stored). -/
theorem c3_counterexample :
    demoPostUser ⟨[], 1⟩ ⟨some "John Doe", none, none⟩ =
      (⟨500, .serverError⟩, ⟨[], 1⟩) := by decide

/-- C3, amended: on the validated create (POST /users), every input
missing name or email replies 400 with a ValidationError whose issue
list names each missing field, and the store is unchanged; the demo
app's POST /user skips validation and surfaces a 500 instead, also
storing nothing. -/
theorem c3_amended (st : UserStore) (input : RawUserInput)
    (h : input.name = none ∨ input.email = none) :
    (∃ issues,
      postUsers st input = (⟨400, .validationIssues issues⟩, st) ∧
      (input.name = none → (⟨"name", "Required"⟩ : FieldIssue) ∈ issues) ∧
      (input.email = none → (⟨"email", "Required"⟩ : FieldIssue) ∈ issues)) ∧
    demoPostUser st input = (⟨500, .serverError⟩, st) := by
  constructor
  · refine ⟨checkRequiredString "name" 3 "Name must be at least 3 characters long" input.name ++
        checkEmail "Invalid email address" input.email, ?_, ?_, ?_⟩
    · have hne : checkRequiredString "name" 3 "Name must be at least 3 characters long" input.name ++
          checkEmail "Invalid email address" input.email ≠ [] := by
        rcases h with h | h <;> simp [checkRequiredString, checkEmail, h]
      have hcrud : createUserSchemaCrud input = .error
          (checkRequiredString "name" 3 "Name must be at least 3 characters long" input.name ++
           checkEmail "Invalid email address" input.email) := by
        unfold createUserSchemaCrud
        split
        case _ heq => exact absurd heq hne
        case _ => rfl
      simp [postUsers, hcrud]
    · intro hn
      simp [checkRequiredString, hn]
    · intro he
      simp [checkEmail, he]
  · rcases h with h | h
    · cases he : input.email <;> simp [demoPostUser, h, he]
    · cases hn : input.name <;> simp [demoPostUser, h, hn]

/-- C3, witness for the amended theorem at a concrete input. -/
theorem c3_witness :
    (∃ issues,
      postUsers ⟨[], 1⟩ ⟨none, none, none⟩ =
        (⟨400, .validationIssues issues⟩, ⟨[], 1⟩) ∧
      ((none : Option String) = none → (⟨"name", "Required"⟩ : FieldIssue) ∈ issues) ∧
      ((none : Option String) = none → (⟨"email", "Required"⟩ : FieldIssue) ∈ issues)) ∧
    demoPostUser ⟨[], 1⟩ ⟨none, none, none⟩ = (⟨500, .serverError⟩, ⟨[], 1⟩) :=
  c3_amended ⟨[], 1⟩ ⟨none, none, none⟩ (Or.inl rfl)

theorem storeInv_prismaCreate {st : UserStore} {n e : String} {u : UserRecord}
    {st2 : UserStore} (h : StoreInv st)
    (hc : prismaUserCreate st n e = .ok (u, st2)) : StoreInv st2 := by
  unfold prismaUserCreate at hc
  split at hc
  · exact Except.noConfusion hc
  · next hany =>
    rw [Bool.not_eq_true, List.any_eq_false] at hany
    simp only [decide_eq_true_eq] at hany
    simp only [Except.ok.injEq, Prod.mk.injEq] at hc
    obtain ⟨-, hst⟩ := hc
    subst hst
    refine ⟨?_, ?_, ?_⟩
    · intro w hw
      rcases List.mem_append.mp hw with hw2 | hw2
      · have := h.1 w hw2
        show w.id < st.nextId + 1
        omega
      · have hweq : w = ⟨st.nextId, n, e⟩ := List.mem_singleton.mp hw2
        subst hweq
        show st.nextId < st.nextId + 1
        omega
    · rw [List.map_append]
      refine List.Nodup.append h.2.1 (by simp) ?_
      intro a ha hb
      rcases List.mem_map.mp ha with ⟨w, hw, rfl⟩
      have h1 := h.1 w hw
      have h2 : w.id = st.nextId := by simpa using hb
      omega
    · rw [List.map_append]
      refine List.Nodup.append h.2.2 (by simp) ?_
      intro a ha hb
      rcases List.mem_map.mp ha with ⟨w, hw, rfl⟩
      have h2 : w.email = e := by simpa using hb
      exact hany w hw h2

theorem nodup_emails_replace {l : List UserRecord} {i : Int} {em : String}
    (hids : (l.map (fun u => u.id)).Nodup)
    (hems : (l.map (fun u => u.email)).Nodup)
    (hfresh : ∀ v ∈ l, v.id ≠ i → v.email ≠ em) :
    (l.map (fun v => if v.id = i then em else v.email)).Nodup := by
  induction l with
  | nil => simp
  | cons a l ih =>
    simp only [List.map_cons, List.nodup_cons] at hids hems ⊢
    obtain ⟨haid, hids⟩ := hids
    obtain ⟨haem, hems⟩ := hems
    have hfresh2 : ∀ v ∈ l, v.id ≠ i → v.email ≠ em :=
      fun v hv => hfresh v (List.mem_cons_of_mem a hv)
    by_cases hai : a.id = i
    · have htail : ∀ v ∈ l, v.id ≠ i := by
        intro v hv hvi
        exact haid (List.mem_map.mpr ⟨v, hv, by rw [hvi, hai]⟩)
      have hmapeq : l.map (fun v => if v.id = i then em else v.email) =
          l.map (fun v => v.email) :=
        List.map_congr_left (fun v hv => by rw [if_neg (htail v hv)])
      rw [if_pos hai, hmapeq]
      refine ⟨?_, hems⟩
      intro hmem
      rcases List.mem_map.mp hmem with ⟨v, hv, hveq⟩
      exact hfresh2 v hv (htail v hv) hveq
    · rw [if_neg hai]
      refine ⟨?_, ih hids hems hfresh2⟩
      intro hmem
      rcases List.mem_map.mp hmem with ⟨v, hv, hveq⟩
      by_cases hvi : v.id = i
      · rw [if_pos hvi] at hveq
        exact hfresh a (List.mem_cons_self a l) hai hveq.symm
      · rw [if_neg hvi] at hveq
        exact haem (List.mem_map.mpr ⟨v, hv, hveq⟩)

theorem storeInv_prismaUpdate {st : UserStore} {pid : Option Int}
    {name email : Option String} {u : UserRecord} {st2 : UserStore}
    (h : StoreInv st)
    (hc : prismaUserUpdate st pid name email = .ok (u, st2)) : StoreInv st2 := by
  cases pid with
  | none => simp [prismaUserUpdate] at hc
  | some i =>
    cases hf : st.users.find? (fun v => v.id = i) with
    | none => simp [prismaUserUpdate, hf] at hc
    | some w =>
      have hwi : w.id = i := by simpa using List.find?_some hf
      simp only [prismaUserUpdate, hf] at hc
      split at hc
      · exact Except.noConfusion hc
      · next hany =>
        rw [Bool.not_eq_true, List.any_eq_false] at hany
        simp only [decide_eq_true_eq, not_and] at hany
        simp only [Except.ok.injEq, Prod.mk.injEq] at hc
        obtain ⟨-, hst⟩ := hc
        subst hst
        have hfid : ∀ v : UserRecord,
            (if v.id = i then
              (⟨w.id, name.getD w.name, email.getD w.email⟩ : UserRecord)
             else v).id = v.id := by
          intro v
          by_cases hvi : v.id = i
          · rw [if_pos hvi]
            show w.id = v.id
            rw [hwi, hvi]
          · rw [if_neg hvi]
        refine ⟨?_, ?_, ?_⟩
        · intro x hx
          rcases List.mem_map.mp hx with ⟨v, hv, rfl⟩
          rw [hfid v]
          exact h.1 v hv
        · rw [List.map_map]
          have hcompid : ∀ v ∈ st.users,
              ((fun x => x.id) ∘ (fun v => if v.id = i then
                (⟨w.id, name.getD w.name, email.getD w.email⟩ : UserRecord)
               else v)) v = (fun x => x.id) v := fun v _ => hfid v
          rw [List.map_congr_left hcompid]
          exact h.2.1
        · rw [List.map_map]
          have hcomp : ∀ v ∈ st.users,
              ((fun x => x.email) ∘ (fun v => if v.id = i then
                (⟨w.id, name.getD w.name, email.getD w.email⟩ : UserRecord)
               else v)) v =
              (fun v => if v.id = i then (email.getD w.email) else v.email) v := by
            intro v _
            by_cases hvi : v.id = i <;> simp [hvi]
          rw [List.map_congr_left hcomp]
          exact nodup_emails_replace h.2.1 h.2.2
            (fun v hv hvi => hany v hv hvi)

theorem storeInv_prismaDelete {st : UserStore} {pid : Option Int}
    {st2 : UserStore} (h : StoreInv st)
    (hc : prismaUserDelete st pid = .ok st2) : StoreInv st2 := by
  cases pid with
  | none => simp [prismaUserDelete] at hc
  | some i =>
    cases hf : st.users.find? (fun v => v.id = i) with
    | none => simp [prismaUserDelete, hf] at hc
    | some w =>
      simp only [prismaUserDelete, hf, Except.ok.injEq] at hc
      subst hc
      refine ⟨?_, ?_, ?_⟩
      · intro x hx
        exact h.1 x (List.mem_of_mem_filter hx)
      · exact List.Nodup.sublist (List.Sublist.map _ (List.filter_sublist _)) h.2.1
      · exact List.Nodup.sublist (List.Sublist.map _ (List.filter_sublist _)) h.2.2

theorem storeInv_postUsers (st : UserStore) (h : StoreInv st)
    (b : RawUserInput) : StoreInv (postUsers st b).2 := by
  cases hv : createUserSchemaCrud b with
  | error issues =>
    simp only [postUsers, hv]
    exact h
  | ok p =>
    cases hc : prismaUserCreate st p.name p.email with
    | error e =>
      simp only [postUsers, hv, hc]
      exact h
    | ok r =>
      obtain ⟨u, st2⟩ := r
      have h2 := storeInv_prismaCreate h hc
      simp only [postUsers, hv, hc]
      exact h2

theorem storeInv_putUser (st : UserStore) (h : StoreInv st)
    (s : String) (b : UpdateBody) : StoreInv (putUserById st s b).2 := by
  cases hc : prismaUserUpdate st (jsParseInt s) b.name b.email with
  | error e =>
    simp only [putUserById, putUserByParsedId, hc]
    exact h
  | ok r =>
    obtain ⟨u, st2⟩ := r
    have h2 := storeInv_prismaUpdate h hc
    simp only [putUserById, putUserByParsedId, hc]
    exact h2

theorem storeInv_deleteUser (st : UserStore) (h : StoreInv st)
    (s : String) : StoreInv (deleteUserById st s).2 := by
  cases hc : prismaUserDelete st (jsParseInt s) with
  | error e =>
    simp only [deleteUserById, deleteUserByParsedId, hc]
    exact h
  | ok st2 =>
    have h2 := storeInv_prismaDelete h hc
    simp only [deleteUserById, deleteUserByParsedId, hc]
    exact h2

theorem storeInv_demoPostUser (st : UserStore) (h : StoreInv st)
    (b : RawUserInput) : StoreInv (demoPostUser st b).2 := by
  cases hn : b.name with
  | none =>
    cases he : b.email <;> simp only [demoPostUser, hn, he] <;> exact h
  | some n =>
    cases he : b.email with
    | none =>
      simp only [demoPostUser, hn, he]
      exact h
    | some e =>
      cases hc : prismaUserCreate st n e with
      | error er =>
        simp only [demoPostUser, hn, he, hc]
        exact h
      | ok r =>
        obtain ⟨u, st2⟩ := r
        have h2 := storeInv_prismaCreate h hc
        simp only [demoPostUser, hn, he, hc]
        exact h2

/-- C8: in every well-formed store state (ids below the counter and
pairwise distinct, emails pairwise distinct — the `@unique` index), no
two distinct stored Users share an email, and each of create (both the
validated POST /users and the demo POST /user), update and delete
preserves the whole invariant, so it holds in every reachable state. -/
theorem c8_email_unique (st : UserStore) (hinv : StoreInv st) :
    EmailsUnique st ∧
    (∀ b, StoreInv (postUsers st b).2) ∧
    (∀ s b, StoreInv (putUserById st s b).2) ∧
    (∀ s, StoreInv (deleteUserById st s).2) ∧
    (∀ b, StoreInv (demoPostUser st b).2) := by
  refine ⟨?_, fun b => storeInv_postUsers st hinv b,
    fun s b => storeInv_putUser st hinv s b,
    fun s => storeInv_deleteUser st hinv s,
    fun b => storeInv_demoPostUser st hinv b⟩
  intro u hu v hv huv he
  exact huv (List.inj_on_of_nodup_map hinv.2.2 hu hv he)

/-- C8, witness at a concrete two-user store. -/
theorem c8_witness :
    EmailsUnique ⟨[⟨1, "Ann", "ann@example.com"⟩, ⟨2, "Bob", "bob@example.com"⟩], 3⟩ ∧
    StoreInv (postUsers ⟨[⟨1, "Ann", "ann@example.com"⟩, ⟨2, "Bob", "bob@example.com"⟩], 3⟩
      ⟨some "Cleo", some "cleo@example.com", none⟩).2 :=
  ⟨(c8_email_unique _ (by decide)).1,
   (c8_email_unique ⟨[⟨1, "Ann", "ann@example.com"⟩, ⟨2, "Bob", "bob@example.com"⟩], 3⟩
      (by decide)).2.1 ⟨some "Cleo", some "cleo@example.com", none⟩⟩

/-- C7, counterexample: with no users stored, a schema-valid Post input
whose userId is 1 makes POST /posts reply 400 whose body is the store's
foreign-key constraint violation passed through by the catch-all — not
a per-field validation failure — and no Post is stored. -/
theorem c7_counterexample :
    postPosts ⟨[], 1⟩ ⟨[], 1⟩
      ⟨some "First Post", some "This is my first post!", some 1⟩ =
      (⟨400, .storeError .foreignKeyViolation⟩, ⟨[], 1⟩) := by decide

/-- C7, amended: for every Post input that passes `createPostSchema`
but whose userId matches no stored User, POST /posts replies 400
carrying the database foreign-key constraint violation (the handler
never verifies the User itself, so the failure is not reported as a
validation error), and the Post store is unchanged. -/
theorem c7_amended (ust : UserStore) (pst : PostStore) (input : RawPostInput)
    (pp : ParsedPost) (hv : createPostSchema input = .ok pp)
    (hno : ∀ u ∈ ust.users, u.id ≠ pp.userId) :
    postPosts ust pst input =
      ((⟨400, .storeError .foreignKeyViolation⟩ : Reply), pst) := by
  unfold postPosts
  rw [hv]
  have hg : ust.users.any (fun u => u.id = pp.userId) = false := by
    rw [List.any_eq_false]
    intro u hu
    simpa using hno u hu
  simp [prismaPostCreate, hg]

/-- C1, counterexample: the input with an address field is accepted by
the validator (`createUserSchema` of demo-fastify, where address is an
optional string), yet create followed by getById returns a record
holding only id, name and email — the stored `User` model has no
address column and the crud schema strips the key — so the address
field of the input is dropped, contradicting `no field of the input
dropped`. -/
theorem c1_counterexample :
    createUserSchemaDemo ⟨some "John Doe", some "john@example.com", some "10 Elm Street"⟩ =
      .ok ⟨"John Doe", "john@example.com", some "10 Elm Street"⟩ ∧
    postUsers ⟨[], 1⟩ ⟨some "John Doe", some "john@example.com", some "10 Elm Street"⟩ =
      (⟨201, .user ⟨1, "John Doe", "john@example.com"⟩⟩,
        ⟨[⟨1, "John Doe", "john@example.com"⟩], 2⟩) ∧
    getUserById ⟨[⟨1, "John Doe", "john@example.com"⟩], 2⟩ "1" =
      ⟨200, .user ⟨1, "John Doe", "john@example.com"⟩⟩ := by decide

/-- C1, amended: for every input accepted by the validator in which no
address is present, create (POST /users) stores a record carrying
exactly the input's name and email plus the generated id, and getById
on that id returns it unchanged; an address field, though accepted by
the validator, would be dropped because the stored model has no such
column. -/
theorem c1_amended (st : UserStore) (input : RawUserInput) (pu : ParsedUserDemo)
    (s : String)
    (hv : createUserSchemaDemo input = .ok pu)
    (_haddr : input.address = none)
    (hinv : StoreInv st)
    (hfresh : ∀ v ∈ st.users, v.email ≠ pu.email)
    (hs : jsParseInt s = some st.nextId) :
    postUsers st input =
      ((⟨201, .user ⟨st.nextId, pu.name, pu.email⟩⟩ : Reply),
        ⟨st.users ++ [⟨st.nextId, pu.name, pu.email⟩], st.nextId + 1⟩) ∧
    getUserById ⟨st.users ++ [⟨st.nextId, pu.name, pu.email⟩], st.nextId + 1⟩ s =
      ⟨200, .user ⟨st.nextId, pu.name, pu.email⟩⟩ := by
  obtain ⟨hn, hlen, he, hfe, _⟩ := createUserSchemaDemo_ok_inv hv
  have hcrud := createUserSchemaCrud_ok_of hn (by omega) he hfe
  have hany : st.users.any (fun u => u.email = pu.email) = false := by
    rw [List.any_eq_false]
    intro u hu
    simpa using hfresh u hu
  constructor
  · simp [postUsers, hcrud, prismaUserCreate, hany]
  · have hnone : st.users.find? (fun u => u.id = st.nextId) = none := by
      rw [List.find?_eq_none]
      intro u hu
      simpa using Int.ne_of_lt (hinv.1 u hu)
    simp [getUserById, getUserByParsedId, hs, prismaUserFindUnique,
      List.find?_append, hnone, List.find?]

/-- C1, witness for the amended theorem at a concrete input. -/
theorem c1_witness :
    postUsers ⟨[], 1⟩ ⟨some "John Doe", some "john@example.com", none⟩ =
      ((⟨201, .user ⟨1, "John Doe", "john@example.com"⟩⟩ : Reply),
        ⟨[] ++ [⟨1, "John Doe", "john@example.com"⟩], 1 + 1⟩) ∧
    getUserById ⟨[] ++ [⟨1, "John Doe", "john@example.com"⟩], 1 + 1⟩ "1" =
      ⟨200, .user ⟨1, "John Doe", "john@example.com"⟩⟩ :=
  c1_amended ⟨[], 1⟩ ⟨some "John Doe", some "john@example.com", none⟩
    ⟨"John Doe", "john@example.com", none⟩ "1" (by decide) rfl (by decide)
    (by decide) (by decide)

/-- C4, counterexample: with an empty store (so id 1 resolves to no
record), PUT /users/1 and DELETE /users/1 reply 500: the handlers have
no not-found handling, so prisma's record-not-found error is surfaced
by fastify's default error handler as 500, not 404. -/
theorem c4_counterexample :
    putUserById ⟨[], 1⟩ "1" ⟨none, none⟩ = (⟨500, .serverError⟩, ⟨[], 1⟩) ∧
    deleteUserById ⟨[], 1⟩ "1" = (⟨500, .serverError⟩, ⟨[], 1⟩) := by decide

/-- C4, amended: for every id that resolves to no stored record,
getById replies 404; update and delete surface the store's
record-not-found error through the framework default handler as 500
(not 404), leaving the store unchanged. -/
theorem c4_amended (st : UserStore) (s : String) (i : Int) (b : UpdateBody)
    (hs : jsParseInt s = some i)
    (hno : ∀ u ∈ st.users, u.id ≠ i) :
    getUserById st s = ⟨404, .message "User not found"⟩ ∧
    putUserById st s b = (⟨500, .serverError⟩, st) ∧
    deleteUserById st s = (⟨500, .serverError⟩, st) := by
  have hf : st.users.find? (fun u => u.id = i) = none := by
    rw [List.find?_eq_none]
    intro u hu
    simpa using hno u hu
  refine ⟨?_, ?_, ?_⟩ <;>
    simp [getUserById, getUserByParsedId, prismaUserFindUnique, putUserById,
      putUserByParsedId, prismaUserUpdate, deleteUserById, deleteUserByParsedId,
      prismaUserDelete, hs, hf]

/-- C4, witness for the amended theorem at a concrete input. -/
theorem c4_witness :
    getUserById ⟨[], 1⟩ "7" = ⟨404, .message "User not found"⟩ ∧
    putUserById ⟨[], 1⟩ "7" ⟨none, none⟩ = (⟨500, .serverError⟩, ⟨[], 1⟩) ∧
    deleteUserById ⟨[], 1⟩ "7" = (⟨500, .serverError⟩, ⟨[], 1⟩) :=
  c4_amended ⟨[], 1⟩ "7" 7 ⟨none, none⟩ (by decide) (by decide)

/-- C5: for every stored id, a successful delete removes the record and
a subsequent getById on the same id replies 404 `User not found` (the
NotFoundError path of the GET handler). -/
theorem c5_delete_then_get (st : UserStore) (s : String) (i : Int)
    (hs : jsParseInt s = some i)
    (hmem : ∃ u ∈ st.users, u.id = i) :
    deleteUserById st s =
      ((⟨204, .empty⟩ : Reply),
        ⟨st.users.filter (fun u => u.id ≠ i), st.nextId⟩) ∧
    getUserById ⟨st.users.filter (fun u => u.id ≠ i), st.nextId⟩ s =
      ⟨404, .message "User not found"⟩ := by
  obtain ⟨u, hu, hui⟩ := hmem
  constructor
  · cases hf : st.users.find? (fun v => v.id = i) with
    | none =>
      rw [List.find?_eq_none] at hf
      exact absurd (by simp [hui]) (hf u hu)
    | some w =>
      simp [deleteUserById, deleteUserByParsedId, prismaUserDelete, hs, hf]
  · have hf2 : (st.users.filter (fun v => v.id ≠ i)).find? (fun v => v.id = i)
        = none := by
      rw [List.find?_eq_none]
      intro v hv
      have hne := (List.mem_filter.mp hv).2
      simpa using hne
    simp only [getUserById, getUserByParsedId, prismaUserFindUnique, hs]
    rw [hf2]

/-- C5, witness at a concrete store. -/
theorem c5_witness :
    deleteUserById ⟨[⟨1, "John Doe", "john@example.com"⟩], 2⟩ "1" =
      ((⟨204, .empty⟩ : Reply),
        ⟨List.filter (fun u => u.id ≠ 1) [⟨1, "John Doe", "john@example.com"⟩], 2⟩) ∧
    getUserById ⟨List.filter (fun u => u.id ≠ 1) [⟨1, "John Doe", "john@example.com"⟩], 2⟩ "1" =
      ⟨404, .message "User not found"⟩ :=
  c5_delete_then_get ⟨[⟨1, "John Doe", "john@example.com"⟩], 2⟩ "1" 1 (by decide)
    ⟨⟨1, "John Doe", "john@example.com"⟩, by simp, rfl⟩

/-- C6: for every stored record, update with the empty patch (both name
and email `undefined`) replies 200 with the record and leaves the whole
store unchanged: prisma ignores `undefined` fields in `data`. -/
theorem c6_empty_patch (st : UserStore) (s : String) (i : Int) (u : UserRecord)
    (hinv : StoreInv st)
    (hs : jsParseInt s = some i)
    (hu : st.users.find? (fun v => v.id = i) = some u) :
    putUserById st s ⟨none, none⟩ = (⟨200, .user u⟩, st) := by
  have humem : u ∈ st.users := List.mem_of_find?_eq_some hu
  have hui : u.id = i := by simpa using List.find?_some hu
  have hguard : ¬∃ x ∈ st.users, ¬x.id = i ∧ x.email = u.email := by
    rintro ⟨v, hv, hvi, hve⟩
    exact hvi (by rw [List.inj_on_of_nodup_map hinv.2.2 hv humem hve, hui])
  have hmap : st.users.map (fun v => if v.id = i then u else v) = st.users := by
    have h1 : ∀ v ∈ st.users, (if v.id = i then u else v) = id v := by
      intro v hv
      by_cases hvi : v.id = i
      · simp only [if_pos hvi, id]
        exact (List.inj_on_of_nodup_map hinv.2.1 hv humem (by rw [hvi, hui])).symm
      · simp only [if_neg hvi, id]
    rw [List.map_congr_left h1, List.map_id]
  simp [putUserById, putUserByParsedId, prismaUserUpdate, hs, hu, hguard, hmap]

/-- C6, witness at a concrete store. -/
theorem c6_witness :
    putUserById ⟨[⟨1, "John Doe", "john@example.com"⟩], 2⟩ "1" ⟨none, none⟩ =
      (⟨200, .user ⟨1, "John Doe", "john@example.com"⟩⟩,
        ⟨[⟨1, "John Doe", "john@example.com"⟩], 2⟩) :=
  c6_empty_patch ⟨[⟨1, "John Doe", "john@example.com"⟩], 2⟩ "1" 1
    ⟨1, "John Doe", "john@example.com"⟩ (by decide) (by decide) (by decide)

/-- C7, witness for the amended theorem at a concrete input. -/
theorem c7_witness :
    postPosts ⟨[], 1⟩ ⟨[], 1⟩
      ⟨some "First Post", some "This is my first post!", some 1⟩ =
      ((⟨400, .storeError .foreignKeyViolation⟩ : Reply), ⟨[], 1⟩) :=
  c7_amended ⟨[], 1⟩ ⟨[], 1⟩ _ ⟨"First Post", "This is my first post!", 1⟩
    (by decide) (by decide)

/-- C9, counterexample: the demo app's POST /user (a route that creates
a record, cited by the claim) replies with fastify's default status 200
on a successful create, not 201. -/
theorem c9_counterexample :
    demoPostUser ⟨[], 1⟩ ⟨some "John Doe", some "john@example.com", none⟩ =
      (⟨200, .messageUser "User created successfully"
          ⟨1, "John Doe", "john@example.com"⟩⟩,
        ⟨[⟨1, "John Doe", "john@example.com"⟩], 2⟩) := by decide

/-- C9, amended: the fastify-crud routes return the stated codes —
create 201 exactly on success, list always 200, getById and update 200
exactly on success, delete 204 exactly on success — but the demo app's
POST /user never replies 201: it replies 200 exactly on a successful
create. -/
theorem c9_amended (st : UserStore) :
    (∀ b, ((postUsers st b).1.status = 201 ↔
      ∃ u, (postUsers st b).1.body = .user u)) ∧
    (getUsers st).status = 200 ∧
    (∀ s, ((getUserById st s).status = 200 ↔
      ∃ u, (getUserById st s).body = .user u)) ∧
    (∀ s b, ((putUserById st s b).1.status = 200 ↔
      ∃ u, (putUserById st s b).1.body = .user u)) ∧
    (∀ s, ((deleteUserById st s).1.status = 204 ↔
      (deleteUserById st s).1.body = .empty)) ∧
    (∀ b, (demoPostUser st b).1.status ≠ 201 ∧
      ((demoPostUser st b).1.status = 200 ↔
        ∃ u, (demoPostUser st b).1.body =
          .messageUser "User created successfully" u)) := by
  refine ⟨?_, rfl, ?_, ?_, ?_, ?_⟩
  · intro b
    cases hv : createUserSchemaCrud b with
    | error issues => simp [postUsers, hv]
    | ok p =>
      cases hc : prismaUserCreate st p.name p.email with
      | error e => simp [postUsers, hv, hc]
      | ok r =>
        obtain ⟨u, st2⟩ := r
        simp [postUsers, hv, hc]
  · intro s
    cases hr : prismaUserFindUnique st (jsParseInt s) with
    | error e => simp [getUserById, getUserByParsedId, hr]
    | ok o =>
      cases o with
      | none => simp [getUserById, getUserByParsedId, hr]
      | some u => simp [getUserById, getUserByParsedId, hr]
  · intro s b
    cases hr : prismaUserUpdate st (jsParseInt s) b.name b.email with
    | error e => simp [putUserById, putUserByParsedId, hr]
    | ok r =>
      obtain ⟨u, st2⟩ := r
      simp [putUserById, putUserByParsedId, hr]
  · intro s
    cases hr : prismaUserDelete st (jsParseInt s) with
    | error e => simp [deleteUserById, deleteUserByParsedId, hr]
    | ok st2 => simp [deleteUserById, deleteUserByParsedId, hr]
  · intro b
    cases hn : b.name with
    | none => cases he : b.email <;> simp [demoPostUser, hn, he]
    | some n =>
      cases he : b.email with
      | none => simp [demoPostUser, hn, he]
      | some e =>
        cases hc : prismaUserCreate st n e with
        | error er => simp [demoPostUser, hn, he, hc]
        | ok r =>
          obtain ⟨u, st2⟩ := r
          simp [demoPostUser, hn, he, hc]

/-- C9, witness: the crud create replies 201 at a concrete success and
the demo create does not. -/
theorem c9_witness :
    (postUsers ⟨[], 1⟩ ⟨some "John Doe", some "john@example.com", none⟩).1.status
      = 201 ∧
    (demoPostUser ⟨[], 1⟩ ⟨some "John Doe", some "john@example.com", none⟩).1.status
      ≠ 201 := by
  constructor
  · exact ((c9_amended ⟨[], 1⟩).1 _).mpr
      ⟨⟨1, "John Doe", "john@example.com"⟩, by decide⟩
  · exact ((c9_amended ⟨[], 1⟩).2.2.2.2.2 _).1

/-! ## parseInt lemmas for C10 -/

theorem isJsWhitespace_isDigit_false {c : Char} (h : isJsWhitespace c = true) :
    c.isDigit = false := by
  simp only [isJsWhitespace, Bool.or_eq_true, decide_eq_true_eq] at h
  rcases h with
    ((((((((((((((((((((((((rfl | rfl) | rfl) | rfl) | rfl) | rfl) | rfl) | rfl) | rfl) | rfl) | rfl) | rfl) | rfl) | rfl) | rfl) | rfl) | rfl) | rfl) | rfl) | rfl) | rfl) | rfl) | rfl) | rfl) | rfl) <;>
    decide

theorem isDigit_isJsWhitespace_false {c : Char} (h : c.isDigit = true) :
    isJsWhitespace c = false := by
  cases hw : isJsWhitespace c with
  | false => rfl
  | true =>
    rw [isJsWhitespace_isDigit_false hw] at h
    exact Bool.noConfusion h

theorem isDigit_ne_minus {c : Char} (h : c.isDigit = true) : c ≠ '-' := by
  intro hc
  subst hc
  exact absurd h (by decide)

theorem isDigit_ne_plus {c : Char} (h : c.isDigit = true) : c ≠ '+' := by
  intro hc
  subst hc
  exact absurd h (by decide)

theorem not_isDigit_ne_zero {c : Char} (h : c.isDigit = false) : c ≠ '0' := by
  intro hc
  subst hc
  exact absurd h (by decide)

theorem jsParseInt_digit {s : String} {c : Char} {cs : List Char}
    (hdata : s.data = c :: cs) (hd : c.isDigit = true)
    (hx : s.data.take 2 ≠ ['0', 'x']) (hX : s.data.take 2 ≠ ['0', 'X']) :
    jsParseInt s = some ((decVal (s.data.takeWhile Char.isDigit) : Nat) : Int) := by
  have hdw : s.data.dropWhile isJsWhitespace = c :: cs := by
    rw [hdata]
    simp [List.dropWhile_cons, isDigit_isJsWhitespace_false hd]
  rw [hdata] at hx hX
  rw [hdata]
  simp only [jsParseInt, hdw]
  simp [isDigit_ne_minus hd, isDigit_ne_plus hd, hd]
  intro hcontra
  rcases hcontra with ⟨h0, h1⟩ | ⟨h0, h1⟩
  · exact absurd (by simp [List.take_succ_cons, h0, h1]) hx
  · exact absurd (by simp [List.take_succ_cons, h0, h1]) hX

theorem jsParseInt_nonnum {s : String} {c : Char} {cs : List Char}
    (hdata : s.data = c :: cs) (hd : c.isDigit = false)
    (hminus : c ≠ '-') (hplus : c ≠ '+') (hws : isJsWhitespace c = false) :
    jsParseInt s = none := by
  have hdw : s.data.dropWhile isJsWhitespace = c :: cs := by
    rw [hdata]
    simp [List.dropWhile_cons, hws]
  have hzero : c ≠ '0' := not_isDigit_ne_zero hd
  have hx : (c :: cs).take 2 ≠ ['0', 'x'] := by
    simp [List.take_succ_cons, hzero]
  have hX : (c :: cs).take 2 ≠ ['0', 'X'] := by
    simp [List.take_succ_cons, hzero]
  simp only [jsParseInt, hdw]
  simp [hminus, hplus, hd]
  intro hcontra
  rcases hcontra with ⟨h0, h1⟩ | ⟨h0, h1⟩
  · exact absurd (by simp [List.take_succ_cons, h0, h1]) hx
  · exact absurd (by simp [List.take_succ_cons, h0, h1]) hX

/-- C10, counterexample: the path parameter `0x10` starts with the
numeric prefix `0` followed by non-numeric characters, so by the claim
the operation should target the record with id 0; `parseInt` instead
reads it as hexadecimal 16, and getById returns the id-16 record (a
lookup by the claimed numeric prefix 0 would be not-found). -/
theorem c10_counterexample :
    decimalDigitRunVal "0x10" = some 0 ∧
    jsParseInt "0x10" = some 16 ∧
    getUserById ⟨[⟨16, "Bob", "bob@example.com"⟩], 17⟩ "0x10" =
      ⟨200, .user ⟨16, "Bob", "bob@example.com"⟩⟩ ∧
    getUserByParsedId ⟨[⟨16, "Bob", "bob@example.com"⟩], 17⟩ (some 0) =
      ⟨404, .message "User not found"⟩ := by decide

/-- C10, amended: the `:id` parameter is interpreted by `parseInt`,
which is decimal prefix parsing except that leading StrWhiteSpaceChar
characters and an optional sign are skipped and a leading `0x`/`0X`
switches to hexadecimal.  For every path parameter beginning with a
decimal digit, not beginning with `0x`/`0X`, and whose maximal leading
decimal-digit run has value below 2^53 (where the double `parseInt`
returns is exact), each operation targets the record whose id is the
value of that digit run; for every path parameter whose first
character is no digit, sign, or JavaScript whitespace, the parsed id
is NaN and the operation resolves to no record (the handlers surface
the invalid id as a 500, leaving the store unchanged). -/
theorem c10_amended (st : UserStore) (s : String) (c : Char) (cs : List Char)
    (hdata : s.data = c :: cs) :
    (c.isDigit = true → s.data.take 2 ≠ ['0', 'x'] → s.data.take 2 ≠ ['0', 'X'] →
      decVal (s.data.takeWhile Char.isDigit) < 2 ^ 53 →
      ∃ n, decimalDigitRunVal s = some n ∧
        jsParseInt s = some (n : Int) ∧
        getUserById st s = getUserByParsedId st (some (n : Int)) ∧
        (∀ b, putUserById st s b = putUserByParsedId st (some (n : Int)) b) ∧
        deleteUserById st s = deleteUserByParsedId st (some (n : Int))) ∧
    (c.isDigit = false → c ≠ '+' → c ≠ '-' → isJsWhitespace c = false →
      jsParseInt s = none ∧
      getUserById st s = ⟨500, .serverError⟩ ∧
      (∀ b, putUserById st s b = (⟨500, .serverError⟩, st)) ∧
      deleteUserById st s = (⟨500, .serverError⟩, st)) := by
  constructor
  · intro hd hx hX _hbound
    have hj := jsParseInt_digit hdata hd hx hX
    refine ⟨decVal (s.data.takeWhile Char.isDigit), ?_, hj, ?_, ?_, ?_⟩
    · unfold decimalDigitRunVal
      cases ht : s.data.takeWhile Char.isDigit with
      | nil =>
        rw [hdata] at ht
        simp [List.takeWhile_cons, hd] at ht
      | cons d ds => rfl
    · unfold getUserById
      rw [hj]
    · intro b
      unfold putUserById
      rw [hj]
    · unfold deleteUserById
      rw [hj]
  · intro hd hplus hminus hws
    have hj := jsParseInt_nonnum hdata hd hminus hplus hws
    refine ⟨hj, ?_, ?_, ?_⟩
    · unfold getUserById
      rw [hj]
      rfl
    · intro b
      unfold putUserById
      rw [hj]
      rfl
    · unfold deleteUserById
      rw [hj]
      rfl

/-- C10, witness for the amended theorem at concrete path parameters. -/
theorem c10_witness :
    (∃ n, decimalDigitRunVal "12abc" = some n ∧
      jsParseInt "12abc" = some (n : Int) ∧
      getUserById ⟨[⟨12, "Bob", "bob@example.com"⟩], 13⟩ "12abc" =
        getUserByParsedId ⟨[⟨12, "Bob", "bob@example.com"⟩], 13⟩ (some (n : Int)) ∧
      (∀ b, putUserById ⟨[⟨12, "Bob", "bob@example.com"⟩], 13⟩ "12abc" b =
        putUserByParsedId ⟨[⟨12, "Bob", "bob@example.com"⟩], 13⟩ (some (n : Int)) b) ∧
      deleteUserById ⟨[⟨12, "Bob", "bob@example.com"⟩], 13⟩ "12abc" =
        deleteUserByParsedId ⟨[⟨12, "Bob", "bob@example.com"⟩], 13⟩ (some (n : Int))) ∧
    jsParseInt "xyz" = none :=
  ⟨(c10_amended ⟨[⟨12, "Bob", "bob@example.com"⟩], 13⟩ "12abc" '1' ['2', 'a', 'b', 'c']
      (by decide)).1 (by decide) (by decide) (by decide) (by decide),
   ((c10_amended ⟨[⟨12, "Bob", "bob@example.com"⟩], 13⟩ "xyz" 'x' ['y', 'z']
      (by decide)).2 (by decide) (by decide) (by decide) (by decide)).1⟩
